import Mathlib

/-!
Verification of the vdb-flow ingestion pipeline.

Shallow embedding of the core components of the repository:
chunker (`src/services/text_processing.py`), identity generation and the
Qdrant adapter (`src/database/adapters/qdrant.py`), embedding client
(`src/services/embedding.py`), ingestion orchestrator
(`src/services/collection.py`) and rate limiter (`src/rate_limiter.py`).
Python strings are modelled as Lean `String`s, machine floats appearing in
embedding vectors as `ℚ` (no claim computes with vector values), HTTP
traffic as explicit event traces, and the remote point store as an
association list from point id to stored point.
-/

namespace VdbFlow

/-! ## Python string primitives

`str.split()` (no argument): split on runs of whitespace, dropping empty
words; `" ".join(words)`; `str.strip()`. All are defined on `List Char`
and wrapped for `String`. -/

/-- Accumulator-based model of Python `str.split()` on a character list.
`acc` holds the current (reversed) in-progress word. -/
def pySplitC : List Char → List Char → List (List Char)
  | [], [] => []
  | [], a :: as => [(a :: as).reverse]
  | c :: cs, [] =>
    if c.isWhitespace then pySplitC cs [] else pySplitC cs [c]
  | c :: cs, a :: as =>
    if c.isWhitespace then (a :: as).reverse :: pySplitC cs []
    else pySplitC cs (c :: a :: as)

/-- Python `text.split()`: whitespace-delimited words of a string. -/
def pySplit (s : String) : List String :=
  (pySplitC s.toList []).map String.mk

/-- Python `" ".join(words)` on character lists. -/
def joinWordsC : List (List Char) → List Char
  | [] => []
  | [w] => w
  | w :: ws => w ++ ' ' :: joinWordsC ws

/-- Python `" ".join(words)`. -/
def joinWords (ws : List String) : String :=
  String.mk (joinWordsC (ws.map String.toList))

/-! ## Chunker — `chunk_text` (src/services/text_processing.py)

```python
words = text.split()
chunks = []
for i in range(0, len(words), chunk_size - overlap):
    chunk = " ".join(words[i : i + chunk_size])
    if chunk:
        chunks.append(chunk)
return chunks
```

The `for` loop over `range(0, len(words), step)` is modelled by structural
recursion that repeatedly drops `step` words; the fuel argument bounds the
iteration count (for `step ≥ 1` the loop performs at most `len(words)`
iterations, so fuel `len(words)` is exact; `step = 0` would make the
Python `range` raise `ValueError` and is excluded by `overlap < chunk_size`). -/

/-- Word windows of width `size` whose start indices advance by `step`. -/
def windowsAux (size step : Nat) : Nat → List String → List (List String)
  | 0, _ => []
  | _ + 1, [] => []
  | fuel + 1, w :: ws => ((w :: ws).take size) :: windowsAux size step fuel ((w :: ws).drop step)

/-- `chunk_text(text, chunk_size, overlap)` from
`src/services/text_processing.py` (explicit arguments; the Python
defaults come from configuration). -/
def chunk_text (text : String) (chunk_size overlap : Nat) : List String :=
  let words := pySplit text
  let wins := windowsAux chunk_size (chunk_size - overlap) words.length words
  (wins.map joinWords).filter (fun c => c ≠ "")

/-- The start indices `0, step, 2*step, …` that are `< n` (the indices the
Python `range(0, n, step)` produces), as described by the specification. -/
def startIdxAux (step : Nat) : Nat → Nat → Nat → List Nat
  | 0, _, _ => []
  | fuel + 1, i, n => if i < n then i :: startIdxAux step fuel (i + step) n else []

/-- Start indices of the chunk windows described by the specification. -/
def startIndices (n step : Nat) : List Nat :=
  startIdxAux step n 0 n

/-! ### Chunker lemmas -/

/-- Every word produced by `pySplitC` is nonempty and whitespace-free
(provided the accumulator is whitespace-free). -/
theorem pySplitC_wf : ∀ (cs acc : List Char), (∀ c ∈ acc, c.isWhitespace = false) →
    ∀ w ∈ pySplitC cs acc, w ≠ [] ∧ ∀ c ∈ w, c.isWhitespace = false := by
  intro cs
  induction cs with
  | nil =>
    intro acc hacc w hw
    cases acc with
    | nil => simp [pySplitC] at hw
    | cons a as =>
      simp only [pySplitC, List.mem_singleton] at hw
      subst hw
      refine ⟨by simp, fun c hc => hacc c (List.mem_reverse.mp hc)⟩
  | cons c cs ih =>
    intro acc hacc w hw
    rcases hws : c.isWhitespace with _ | _
    · cases acc with
      | nil =>
        simp [pySplitC, hws] at hw
        refine ih [c] ?_ w hw
        intro d hd
        rcases List.mem_singleton.mp hd with rfl
        exact hws
      | cons a as =>
        simp [pySplitC, hws] at hw
        refine ih (c :: a :: as) ?_ w hw
        intro d hd
        rcases List.mem_cons.mp hd with rfl | h
        · exact hws
        · exact hacc d h
    · cases acc with
      | nil =>
        simp [pySplitC, hws] at hw
        exact ih [] (by simp) w hw
      | cons a as =>
        simp only [pySplitC, hws, if_true, List.mem_cons] at hw
        rcases hw with hw | hw
        · subst hw
          refine ⟨by simp, fun d hd => hacc d (List.mem_reverse.mp hd)⟩
        · exact ih [] (by simp) w hw

/-- Consuming a whitespace-free word prefix just accumulates it. -/
theorem pySplitC_word : ∀ (w cs acc : List Char), (∀ c ∈ w, c.isWhitespace = false) →
    pySplitC (w ++ cs) acc = pySplitC cs (w.reverse ++ acc) := by
  intro w
  induction w with
  | nil => intro cs acc _; simp
  | cons c w ih =>
    intro cs acc h
    have hc : c.isWhitespace = false := h c (by simp)
    cases acc with
    | nil =>
      have : pySplitC (c :: w ++ cs) [] = pySplitC (w ++ cs) [c] := by
        simp [pySplitC, hc]
      rw [this, ih cs [c] (fun d hd => h d (by simp [hd]))]
      simp
    | cons a as =>
      have : pySplitC (c :: w ++ cs) (a :: as) = pySplitC (w ++ cs) (c :: a :: as) := by
        simp [pySplitC, hc]
      rw [this, ih cs (c :: a :: as) (fun d hd => h d (by simp [hd]))]
      simp

/-- Splitting the space-joined form of nonempty whitespace-free words
recovers the words (`split` is left inverse to `" ".join` on such lists). -/
theorem pySplitC_joinWordsC (wss : List (List Char))
    (h : ∀ w ∈ wss, w ≠ [] ∧ ∀ c ∈ w, c.isWhitespace = false) :
    pySplitC (joinWordsC wss) [] = wss := by
  induction wss with
  | nil => simp [joinWordsC, pySplitC]
  | cons w ws ih =>
    rcases h w (by simp) with ⟨hw, hwf⟩
    obtain ⟨a, as, rfl⟩ : ∃ a as, w = a :: as := by
      cases w with
      | nil => exact absurd rfl hw
      | cons a as => exact ⟨a, as, rfl⟩
    cases ws with
    | nil =>
      simp only [joinWordsC]
      have h1 : pySplitC (a :: as) [] = pySplitC [] ((a :: as).reverse ++ []) := by
        conv_lhs => rw [show (a :: as : List Char) = (a :: as) ++ [] from by simp]
        exact pySplitC_word (a :: as) [] [] hwf
      rw [h1]
      rcases hrev : (a :: as).reverse with _ | ⟨b, bs⟩
      · exact absurd (by simpa using congrArg List.reverse hrev) hw
      · have hba : (b :: bs).reverse = a :: as := by
          rw [← hrev, List.reverse_reverse]
        simp [pySplitC, hba]
    | cons w' ws' =>
      simp only [joinWordsC]
      rw [pySplitC_word (a :: as) (' ' :: joinWordsC (w' :: ws')) [] hwf]
      have hsp : (' ' : Char).isWhitespace = true := by decide
      rcases hrev : (a :: as).reverse with _ | ⟨b, bs⟩
      · exact absurd (by simpa using congrArg List.reverse hrev) hw
      · have hba : (b :: bs).reverse = a :: as := by
          rw [← hrev, List.reverse_reverse]
        simp only [pySplitC, hsp, if_true, hba]
        rw [ih (fun x hx => h x (by simp [hx]))]
        simp [hba]

/-- `String.mk` is a left inverse of `String.toList`. -/
theorem mk_toList (s : String) : String.mk s.toList = s := by
  cases s; rfl

/-- `(String.mk cs).toList = cs`. -/
theorem toList_mk (cs : List Char) : (String.mk cs).toList = cs := rfl

/-- Every word of `pySplit` is nonempty and whitespace-free. -/
theorem pySplit_wf (s : String) :
    ∀ w ∈ pySplit s, w ≠ "" ∧ ∀ c ∈ w.toList, c.isWhitespace = false := by
  intro w hw
  simp only [pySplit, List.mem_map] at hw
  obtain ⟨cs, hcs, rfl⟩ := hw
  obtain ⟨hne, hwf⟩ := pySplitC_wf s.toList [] (by simp) cs hcs
  refine ⟨?_, by simpa [toList_mk] using hwf⟩
  intro h
  exact hne (by simpa using congrArg String.toList h)

/-- `pySplit` is a left inverse of `joinWords` on lists of nonempty
whitespace-free words. -/
theorem pySplit_joinWords (ws : List String)
    (h : ∀ w ∈ ws, w ≠ "" ∧ ∀ c ∈ w.toList, c.isWhitespace = false) :
    pySplit (joinWords ws) = ws := by
  unfold pySplit joinWords
  rw [toList_mk, pySplitC_joinWordsC]
  · rw [List.map_map]
    have hid : ∀ w ∈ ws, (String.mk ∘ String.toList) w = w := fun w _ => mk_toList w
    rw [List.map_congr_left hid]
    simp
  · intro w hw
    simp only [List.mem_map] at hw
    obtain ⟨x, hx, rfl⟩ := hw
    obtain ⟨hne, hwf⟩ := h x hx
    refine ⟨?_, hwf⟩
    intro hnil
    exact hne (by rw [← mk_toList x, hnil])

/-- A space-join of a list with a nonempty first word is nonempty. -/
theorem joinWords_ne_empty (w : String) (ws : List String) (hw : w ≠ "") :
    joinWords (w :: ws) ≠ "" := by
  intro h
  have hlist : joinWordsC (w.toList :: ws.map String.toList) = [] := by
    simpa using congrArg String.toList h
  have hwl : w.toList ≠ [] := fun hnil => hw (by rw [← mk_toList w, hnil])
  cases hmap : ws.map String.toList with
  | nil => rw [hmap] at hlist; exact hwl (by simpa [joinWordsC] using hlist)
  | cons y ys => rw [hmap] at hlist; simp [joinWordsC] at hlist

/-- `windowsAux` yields the windows at the Python `range` start indices. -/
theorem windowsAux_eq_startIdx (size step : Nat) (ws : List String) :
    ∀ fuel i, windowsAux size step fuel (ws.drop i) =
      (startIdxAux step fuel i ws.length).map (fun j => (ws.drop j).take size) := by
  intro fuel
  induction fuel with
  | zero => intro i; simp [windowsAux, startIdxAux]
  | succ fuel ih =>
    intro i
    by_cases hi : i < ws.length
    · have hne : ws.drop i ≠ [] := by
        intro h
        have := List.drop_eq_nil_iff.mp h
        omega
      obtain ⟨w, rest, hcons⟩ : ∃ w rest, ws.drop i = w :: rest := by
        rcases h : ws.drop i with _ | ⟨w, rest⟩
        · exact absurd h hne
        · exact ⟨w, rest, rfl⟩
      have hstep : (w :: rest).drop step = ws.drop (i + step) := by
        rw [← hcons, List.drop_drop, Nat.add_comm]
      rw [hcons, startIdxAux, if_pos hi, List.map_cons]
      simp only [windowsAux]
      congr 1
      · rw [hcons]
      · rw [hstep]
        exact ih (i + step)
    · have hnil : ws.drop i = [] :=
        List.drop_eq_nil_iff.mpr (by omega)
      rw [hnil, startIdxAux, if_neg hi]
      simp [windowsAux]

/-- Every start index produced by `startIdxAux` is below the stop bound. -/
theorem startIdxAux_lt (step : Nat) :
    ∀ fuel i n, ∀ j ∈ startIdxAux step fuel i n, j < n := by
  intro fuel
  induction fuel with
  | zero => intro i n j hj; simp [startIdxAux] at hj
  | succ fuel ih =>
    intro i n j hj
    rw [startIdxAux] at hj
    by_cases hi : i < n
    · rw [if_pos hi] at hj
      rcases List.mem_cons.mp hj with rfl | hj
      · exact hi
      · exact ih (i + step) n j hj
    · rw [if_neg hi] at hj
      simp at hj

/-- A corollary of `windowsAux_eq_startIdx` at start index `0` with fuel
equal to the word count (as `chunk_text` uses it). -/
theorem windowsAux_eq_startIdx0 (size step : Nat) (ws : List String) :
    windowsAux size step ws.length ws =
      (startIdxAux step ws.length 0 ws.length).map (fun j => (ws.drop j).take size) := by
  have h := windowsAux_eq_startIdx size step ws ws.length 0
  simpa using h

/-- With `step = size` (zero overlap) the windows concatenate back to the
full word list. -/
theorem windowsAux_flatten (size : Nat) (hsize : 0 < size) :
    ∀ fuel (ws : List String), ws.length ≤ fuel →
      (windowsAux size size fuel ws).flatten = ws := by
  intro fuel
  induction fuel with
  | zero =>
    intro ws hws
    have : ws = [] := List.length_eq_zero.mp (by omega)
    simp [this, windowsAux]
  | succ fuel ih =>
    intro ws hws
    cases ws with
    | nil => simp [windowsAux]
    | cons w rest =>
      rw [windowsAux, List.flatten_cons]
      rw [ih ((w :: rest).drop size) (by simp at hws ⊢; omega)]
      exact List.take_append_drop size (w :: rest)

/-- C2: for `chunk_size > overlap ≥ 0`, `chunk_text` splits the text into
whitespace-delimited words and returns the windows whose start indices are
`0, step, 2*step, …` with `step = chunk_size - overlap`, window `i`
joining words `[i, i+chunk_size)`; `chunk_text "a b c d e" 2 0`
is `["a b", "c d", "e"]`; and with `overlap = 0` the windows' concatenated
words are exactly the word list of the input, in order. -/
theorem chunk_text_windows (text : String) (chunk_size overlap : Nat)
    (hov : overlap < chunk_size) :
    chunk_text text chunk_size overlap =
      (startIndices (pySplit text).length (chunk_size - overlap)).map
        (fun i => joinWords (((pySplit text).drop i).take chunk_size))
    ∧ chunk_text "a b c d e" 2 0 = ["a b", "c d", "e"]
    ∧ (overlap = 0 →
        ((chunk_text text chunk_size overlap).map pySplit).flatten = pySplit text) := by
  have hsize : 0 < chunk_size := by omega
  have key : ∀ (t : String) (ov : Nat), ov < chunk_size →
      chunk_text t chunk_size ov =
        (startIndices (pySplit t).length (chunk_size - ov)).map
          (fun i => joinWords (((pySplit t).drop i).take chunk_size)) := by
    intro t ov hlt
    simp only [chunk_text, startIndices]
    rw [windowsAux_eq_startIdx0, List.map_map]
    apply List.filter_eq_self.mpr
    intro chunk hchunk
    simp only [List.mem_map, Function.comp] at hchunk
    obtain ⟨j, hj, rfl⟩ := hchunk
    have hjlt : j < (pySplit t).length :=
      startIdxAux_lt (chunk_size - ov) (pySplit t).length 0 (pySplit t).length j hj
    have hdrop : (pySplit t).drop j ≠ [] := by
      intro h
      have := List.drop_eq_nil_iff.mp h
      omega
    rcases hcons : ((pySplit t).drop j).take chunk_size with _ | ⟨w, rest⟩
    · rcases hd : (pySplit t).drop j with _ | ⟨x, xs⟩
      · exact absurd hd hdrop
      · rw [hd] at hcons
        cases chunk_size with
        | zero => omega
        | succ k => simp [List.take_succ_cons] at hcons
    · have hwmem : w ∈ pySplit t := by
        have : w ∈ ((pySplit t).drop j).take chunk_size := by rw [hcons]; simp
        exact List.drop_subset j (pySplit t) (List.take_subset _ _ this)
      have hwne : w ≠ "" := (pySplit_wf t w hwmem).1
      simpa [hcons] using joinWords_ne_empty w rest hwne
  refine ⟨key text overlap hov, ?_, ?_⟩
  · decide
  · intro hov0
    subst hov0
    have h1 : (chunk_text text chunk_size 0).map pySplit =
        windowsAux chunk_size chunk_size (pySplit text).length (pySplit text) := by
      rw [key text 0 hov]
      simp only [Nat.sub_zero, startIndices, List.map_map]
      rw [windowsAux_eq_startIdx0]
      apply List.map_congr_left
      intro j hj
      simp only [Function.comp]
      apply pySplit_joinWords
      intro w hw
      exact pySplit_wf text w
        (List.drop_subset j (pySplit text) (List.take_subset _ _ hw))
    rw [h1]
    exact windowsAux_flatten chunk_size hsize (pySplit text).length (pySplit text)
      (le_refl _)

/-- Concrete instance of `chunk_text_windows` at
`("a b c d e", chunk_size 2, overlap 0)`. -/
theorem chunk_text_windows_witness :
    (0 : Nat) < 2 ∧
      (chunk_text "a b c d e" 2 0 =
        (startIndices (pySplit "a b c d e").length (2 - 0)).map
          (fun i => joinWords (((pySplit "a b c d e").drop i).take 2))
      ∧ chunk_text "a b c d e" 2 0 = ["a b", "c d", "e"]
      ∧ ((0 : Nat) = 0 →
          ((chunk_text "a b c d e" 2 0).map pySplit).flatten = pySplit "a b c d e")) :=
  ⟨by decide, chunk_text_windows "a b c d e" 2 0 (by decide)⟩

/-! ## SHA-256 and deterministic point ids
(`hashlib.sha256`, `uuid.UUID`; `QdrantVectorDatabase._generate_point_id`
and `._generate_collision_point_id` in `src/database/adapters/qdrant.py`)

SHA-256 is implemented over `Nat` with explicit `% 2^32` truncation; byte
strings are `List Nat` of values `< 256` obtained by UTF-8 encoding
(Python `str.encode()`). -/

/-- 32-bit modulus. -/
def M32 : Nat := 2 ^ 32

/-- 32-bit right rotation. -/
def rotr32 (n x : Nat) : Nat := ((x >>> n) ||| (x <<< (32 - n))) % M32

/-- SHA-256 Σ₀. -/
def bigSigma0 (x : Nat) : Nat := rotr32 2 x ^^^ rotr32 13 x ^^^ rotr32 22 x

/-- SHA-256 Σ₁. -/
def bigSigma1 (x : Nat) : Nat := rotr32 6 x ^^^ rotr32 11 x ^^^ rotr32 25 x

/-- SHA-256 σ₀. -/
def smallSigma0 (x : Nat) : Nat := rotr32 7 x ^^^ rotr32 18 x ^^^ (x >>> 3)

/-- SHA-256 σ₁. -/
def smallSigma1 (x : Nat) : Nat := rotr32 17 x ^^^ rotr32 19 x ^^^ (x >>> 10)

/-- SHA-256 Ch (¬x is xor against the 32-bit mask). -/
def chFn (x y z : Nat) : Nat := (x &&& y) ^^^ ((x ^^^ 4294967295) &&& z)

/-- SHA-256 Maj. -/
def majFn (x y z : Nat) : Nat := (x &&& y) ^^^ (x &&& z) ^^^ (y &&& z)

/-- SHA-256 round constants (decimal). -/
def sha256K : List Nat :=
  [1116352408, 1899447441, 3049323471, 3921009573, 961987163, 1508970993,
   2453635748, 2870763221, 3624381080, 310598401, 607225278, 1426881987,
   1925078388, 2162078206, 2614888103, 3248222580, 3835390401, 4022224774,
   264347078, 604807628, 770255983, 1249150122, 1555081692, 1996064986,
   2554220882, 2821834349, 2952996808, 3210313671, 3336571891, 3584528711,
   113926993, 338241895, 666307205, 773529912, 1294757372, 1396182291,
   1695183700, 1986661051, 2177026350, 2456956037, 2730485921, 2820302411,
   3259730800, 3345764771, 3516065817, 3600352804, 4094571909, 275423344,
   430227734, 506948616, 659060556, 883997877, 958139571, 1322822218,
   1537002063, 1747873779, 1955562222, 2024104815, 2227730452, 2361852424,
   2428436474, 2756734187, 3204031479, 3329325298]

/-- SHA-256 initial hash value (decimal). -/
def sha256H0 : List Nat :=
  [1779033703, 3144134277, 1013904242, 2773480762,
   1359893119, 2600822924, 528734635, 1541459225]

/-- Extend a 16-word block by `k` schedule words. -/
def extendW (W : List Nat) : Nat → List Nat
  | 0 => W
  | k + 1 =>
    let n := W.length
    let w := (smallSigma1 ((W.get? (n - 2)).getD 0) + (W.get? (n - 7)).getD 0 +
      smallSigma0 ((W.get? (n - 15)).getD 0) + (W.get? (n - 16)).getD 0) % M32
    extendW (W ++ [w]) k

/-- One SHA-256 compression round on the state `[a,b,c,d,e,f,g,h]`. -/
def compressStep (s : List Nat) (kw : Nat × Nat) : List Nat :=
  match s with
  | [a, b, c, d, e, f, g, h] =>
    let t1 := (h + bigSigma1 e + chFn e f g + kw.1 + kw.2) % M32
    let t2 := (bigSigma0 a + majFn a b c) % M32
    [(t1 + t2) % M32, a, b, c, (d + t1) % M32, e, f, g]
  | s => s

/-- Compress one 16-word block into the running hash. -/
def compressBlock (h : List Nat) (block : List Nat) : List Nat :=
  let W := extendW block 48
  let s := (sha256K.zip W).foldl compressStep h
  (h.zip s).map (fun p => (p.1 + p.2) % M32)

/-- Big-endian byte serialization of `x` into `len` bytes. -/
def toBytesBE (len x : Nat) : List Nat :=
  (List.range len).map (fun i => (x >>> (8 * (len - 1 - i))) % 256)

/-- SHA-256 message padding: `0x80`, zeros to 56 mod 64, 64-bit length. -/
def padMessage (msg : List Nat) : List Nat :=
  let padZeros := (119 - msg.length % 64) % 64
  msg ++ [0x80] ++ List.replicate padZeros 0 ++ toBytesBE 8 (8 * msg.length)

/-- Split a byte list into 64-byte blocks (`fuel` bounds recursion). -/
def chunks64 : Nat → List Nat → List (List Nat)
  | 0, _ => []
  | _ + 1, [] => []
  | fuel + 1, l => l.take 64 :: chunks64 fuel (l.drop 64)

/-- Group bytes into big-endian 32-bit words. -/
def bytesToWords : List Nat → List Nat
  | b0 :: b1 :: b2 :: b3 :: rest =>
    ((b0 <<< 24) ||| (b1 <<< 16) ||| (b2 <<< 8) ||| b3) :: bytesToWords rest
  | _ => []

/-- SHA-256 of a byte list, as eight 32-bit words. -/
def sha256Words (msg : List Nat) : List Nat :=
  let padded := padMessage msg
  (chunks64 padded.length padded).foldl
    (fun h block => compressBlock h (bytesToWords block)) sha256H0

/-- Lowercase hex digit. -/
def hexChar (n : Nat) : Char :=
  if n < 10 then Char.ofNat ('0'.toNat + n) else Char.ofNat ('a'.toNat + n - 10)

/-- Eight lowercase hex characters of a 32-bit word. -/
def toHex8 (x : Nat) : List Char :=
  (List.range 8).map (fun i => hexChar ((x >>> (4 * (7 - i))) % 16))

/-- UTF-8 encoding of one character (Python `str.encode()` per code point). -/
def utf8Char (c : Char) : List Nat :=
  let n := c.toNat
  if n < 0x80 then [n]
  else if n < 0x800 then [0xc0 ||| (n >>> 6), 0x80 ||| (n % 64)]
  else if n < 0x10000 then
    [0xe0 ||| (n >>> 12), 0x80 ||| ((n >>> 6) % 64), 0x80 ||| (n % 64)]
  else
    [0xf0 ||| (n >>> 18), 0x80 ||| ((n >>> 12) % 64), 0x80 ||| ((n >>> 6) % 64),
     0x80 ||| (n % 64)]

/-- Python `s.encode()`: UTF-8 bytes of a string. -/
def pyEncode (s : String) : List Nat :=
  (s.toList.map utf8Char).flatten

/-- `hashlib.sha256(s.encode()).hexdigest()`. -/
def sha256hex (s : String) : String :=
  String.mk ((sha256Words (pyEncode s)).map toHex8).flatten

/-- `str(uuid.UUID(h))` for a 32-character lowercase hex string `h`:
dashes inserted in the 8-4-4-4-12 layout. -/
def uuidOfHex32 (h : String) : String :=
  let cs := h.toList
  String.mk (cs.take 8 ++ '-' :: (cs.drop 8).take 4 ++ '-' :: (cs.drop 12).take 4
    ++ '-' :: (cs.drop 16).take 4 ++ '-' :: cs.drop 20)

/-- `QdrantVectorDatabase._generate_point_id(file_name, chunk_id)`:
`str(uuid.UUID(hashlib.sha256(f"{file_name}-{chunk_id}".encode()).hexdigest()[:32]))`. -/
def generate_point_id (file_name : String) (chunk_id : Nat) : String :=
  let base_hash := (sha256hex (file_name ++ "-" ++ toString chunk_id)).take 32
  uuidOfHex32 base_hash

/-- `QdrantVectorDatabase._generate_collision_point_id(file_name, chunk_id, chunk_text)`. -/
def generate_collision_point_id (file_name : String) (chunk_id : Nat)
    (chunk_text : String) : String :=
  let content_hash := (sha256hex chunk_text).take 16
  let collision_hash :=
    (sha256hex (file_name ++ "-" ++ toString chunk_id ++ "-" ++ content_hash)).take 32
  uuidOfHex32 collision_hash

/-! ### SHA-256 validation against published test vectors -/

set_option maxRecDepth 100000

/-- FIPS 180-2 test vector: `sha256("abc")`. -/
theorem sha256hex_abc :
    sha256hex "abc" =
      "ba7816bf8f01cfea414140de5dae2223b00361a396177a9cb410ff61f20015ad" := by
  decide

/-- `sha256("")`. -/
theorem sha256hex_empty :
    sha256hex "" =
      "e3b0c44298fc1c149afbf4c8996fb92427ae41e4649b934ca495991b7852b855" := by
  decide

/-- Multi-byte UTF-8 input agrees with `hashlib` (`sha256("é€".encode())`). -/
theorem sha256hex_utf8 :
    sha256hex "é€" =
      "f0165711145fd4315008feb1f589eb75f63fb382417be0782a1c1cab418bc0c4" := by
  decide

/-- The modelled id generator reproduces the Python adapter's output on a
concrete input (`_generate_point_id("test.md", 1)`). -/
theorem generate_point_id_example :
    generate_point_id "test.md" 1 = "32ff2bac-c6f1-53a0-0bfd-3ca1122afe4a" := by
  decide

/-- The modelled fallback id generator reproduces the Python adapter's
output on a concrete input. -/
theorem generate_collision_point_id_example :
    generate_collision_point_id "test.md" 1 "hello world" =
      "52d0a8ad-80d3-cf0b-4dcb-ccbcbe46a224" := by
  decide

/-- C3: the primary point ID is deterministic — two calls with the same
`(source_name, sequence)` yield the same UUID — and equals the UUID formed
from the first 32 hex characters of `sha256("{source_name}-{sequence}")`. -/
theorem generate_point_id_deterministic (source_name : String) (sequence : Nat) :
    generate_point_id source_name sequence = generate_point_id source_name sequence
    ∧ generate_point_id source_name sequence =
        uuidOfHex32 ((sha256hex (source_name ++ "-" ++ toString sequence)).take 32) :=
  ⟨rfl, rfl⟩

/-! ## JSON values and hybrid-layout detection
(`QdrantVectorDatabase._detect_hybrid_from_info` and
`._ensure_hybrid_collection_cached` in `src/database/adapters/qdrant.py`) -/

/-- JSON values (Python objects produced by `resp.json()`). -/
inductive Json where
  | null
  | bool (b : Bool)
  | num (q : ℚ)
  | str (s : String)
  | arr (xs : List Json)
  | obj (kvs : List (String × Json))

/-- Association-list lookup (Python `dict` access; keys are unique). -/
def alookup {α : Type} : List (String × α) → String → Option α
  | [], _ => none
  | (k, v) :: rest, key => if k = key then some v else alookup rest key

/-- Python truthiness (`bool(x)`) of a JSON value. -/
def jsonTruthy : Json → Bool
  | .null => false
  | .bool b => b
  | .num q => q != 0
  | .str s => s != ""
  | .arr xs => !xs.isEmpty
  | .obj kvs => !kvs.isEmpty

/-- `QdrantVectorDatabase._detect_hybrid_from_info(collection_info)`.
The `isinstance(..., dict)` guards correspond to the `.obj` matches; a
non-dict `collection_info` raises `ValueError`, which the function's own
`except Exception` handler turns into `False`. -/
def detect_hybrid_from_info (collection_info : Json) : Bool :=
  match collection_info with
  | .obj kvs =>
    match (alookup kvs "result").getD (.obj []) with
    | .obj rkvs =>
      match (alookup rkvs "config").getD (.obj []) with
      | .obj ckvs =>
        match (alookup ckvs "params").getD (.obj []) with
        | .obj pkvs =>
          let has_sparse := jsonTruthy ((alookup pkvs "sparse_vectors").getD .null)
          let has_named_vectors :=
            match (alookup pkvs "vectors").getD (.obj []) with
            | .obj vkvs => (alookup vkvs "dense").isSome
            | _ => false
          has_sparse || has_named_vectors
        | _ => false
      | _ => false
    | _ => false
  | _ => false

/-- The `result.config.params` object of a collection-info value, when the
nesting is well-formed (`.null` otherwise). -/
def paramsOf (info : Json) : Json :=
  match info with
  | .obj kvs =>
    match (alookup kvs "result").getD (.obj []) with
    | .obj rkvs =>
      match (alookup rkvs "config").getD (.obj []) with
      | .obj ckvs => (alookup ckvs "params").getD (.obj [])
      | _ => .null
    | _ => .null
  | _ => .null

/-- Error kinds that `_make_request` / `get_collection_info` can raise
(`DatabaseConnectionError`, `DatabaseTimeoutError`, `DatabaseOperationError`,
`QdrantCollectionNotFoundError`). -/
inductive DbErr where
  | connection
  | timeout
  | operation
  | notFound
deriving DecidableEq

/-- `QdrantVectorDatabase._ensure_hybrid_collection_cached(collection)`.
The remote `get_collection_info` call is an oracle argument `fetch`;
returns the hybrid flag and the updated cache. -/
def ensure_hybrid_collection_cached (cache : List (String × Bool))
    (collection : String) (fetch : Except DbErr Json) :
    Bool × List (String × Bool) :=
  match alookup cache collection with
  | some b => (b, cache)
  | none =>
    match fetch with
    | .ok info =>
      let is_hybrid := detect_hybrid_from_info info
      (is_hybrid, (collection, is_hybrid) :: cache)
    | .error _ => (false, (collection, false) :: cache)

/-- `detect_hybrid_from_info` factors through the `result.config.params`
accessor. -/
theorem detect_hybrid_eq_params (info : Json) :
    detect_hybrid_from_info info =
      (match paramsOf info with
       | .obj pkvs =>
         jsonTruthy ((alookup pkvs "sparse_vectors").getD .null) ||
           (match (alookup pkvs "vectors").getD (.obj []) with
            | .obj vkvs => (alookup vkvs "dense").isSome
            | _ => false)
       | _ => false) := by
  cases info <;> try rfl
  case obj kvs =>
    simp only [detect_hybrid_from_info, paramsOf]
    repeat' (split <;> try rfl)

/-- C5: hybrid detection returns `true` exactly when the collection
configuration has a (truthy) sparse-vector configuration or the dense
vector sits under the named `"dense"` sub-key of a vectors mapping; and on
inspection failure `_ensure_hybrid_collection_cached` returns `false`
(standard) and caches that value. -/
theorem detect_hybrid_spec (info : Json) (cache : List (String × Bool))
    (name : String) (e : DbErr) (hnone : alookup cache name = none) :
    (detect_hybrid_from_info info = true ↔
      (∃ pkvs, paramsOf info = .obj pkvs ∧
        (jsonTruthy ((alookup pkvs "sparse_vectors").getD .null) = true ∨
          ∃ vkvs, (alookup pkvs "vectors").getD (.obj []) = .obj vkvs ∧
            (alookup vkvs "dense").isSome = true)))
    ∧ ensure_hybrid_collection_cached cache name (.error e) =
        (false, (name, false) :: cache) := by
  constructor
  · rw [detect_hybrid_eq_params]
    cases hp : paramsOf info with
    | obj pkvs =>
      constructor
      · intro h
        refine ⟨pkvs, rfl, ?_⟩
        simp only [Bool.or_eq_true] at h
        rcases h with hs | hn
        · exact Or.inl hs
        · cases hv : (alookup pkvs "vectors").getD (.obj [])
          all_goals rw [hv] at hn
          case obj vkvs => exact Or.inr ⟨vkvs, rfl, hn⟩
          all_goals exact absurd hn (by simp)
      · rintro ⟨pkvs', hp', hcase⟩
        injection hp' with hinj
        subst hinj
        simp only [Bool.or_eq_true]
        rcases hcase with hs | ⟨vkvs, hv, hd⟩
        · exact Or.inl hs
        · right
          rw [hv]
          exact hd
    | null =>
      constructor
      · intro h; exact absurd h (by simp)
      · rintro ⟨pkvs, h, -⟩; cases h
    | bool b =>
      constructor
      · intro h; exact absurd h (by simp)
      · rintro ⟨pkvs, h, -⟩; cases h
    | num q =>
      constructor
      · intro h; exact absurd h (by simp)
      · rintro ⟨pkvs, h, -⟩; cases h
    | str s =>
      constructor
      · intro h; exact absurd h (by simp)
      · rintro ⟨pkvs, h, -⟩; cases h
    | arr xs =>
      constructor
      · intro h; exact absurd h (by simp)
      · rintro ⟨pkvs, h, -⟩; cases h
  · simp [ensure_hybrid_collection_cached, hnone]

/-- A collection-info value with a sparse-vector configuration (hybrid). -/
def sampleHybridInfo : Json :=
  .obj [("result", .obj [("config", .obj [("params",
    .obj [("sparse_vectors", .obj [("text", .obj [])])])])])]

/-- Concrete instance of `detect_hybrid_spec`: a hybrid collection-info
value, an empty cache and a connection failure. -/
theorem detect_hybrid_spec_witness :
    (alookup ([] : List (String × Bool)) "docs" = none)
    ∧ ((detect_hybrid_from_info sampleHybridInfo = true ↔
        (∃ pkvs, paramsOf sampleHybridInfo = .obj pkvs ∧
          (jsonTruthy ((alookup pkvs "sparse_vectors").getD .null) = true ∨
            ∃ vkvs, (alookup pkvs "vectors").getD (.obj []) = .obj vkvs ∧
              (alookup vkvs "dense").isSome = true)))
      ∧ ensure_hybrid_collection_cached [] "docs" (.error .connection) =
          (false, [("docs", false)])) :=
  ⟨rfl, detect_hybrid_spec sampleHybridInfo [] "docs" .connection rfl⟩

/-! ## Collection-name validation (`validate_collection_name`, src/src/validation.py)

Python: `re.compile(r"^[a-zA-Z0-9][a-zA-Z0-9._-]{0,62}$").match(name)`.
Note `re.match` with a trailing `$` also accepts a single trailing
newline, which the model reproduces. -/

/-- A character of the class `[a-zA-Z0-9._-]`. -/
def nameBodyChar (c : Char) : Bool :=
  c.isAlphanum || c == '.' || c == '_' || c == '-'

/-- `validate_collection_name(name)` as a boolean predicate (`true` iff the
Python function returns without raising `ValueError`). -/
def validate_collection_name (name : String) : Bool :=
  match name.toList with
  | [] => false
  | c :: rest =>
    let body := if rest.getLast? == some '\n' then rest.dropLast else rest
    c.isAlphanum && body.length ≤ 62 && body.all nameBodyChar

/-! ## Point store and `upload_chunk`
(`QdrantVectorDatabase` in `src/database/adapters/qdrant.py`)

The remote Qdrant point store is modelled as a list of stored points
addressed by id (`GET /collections/{c}/points/{id}` returns 200 iff the id
is present); uploads are upserts. Embedding vectors are `List ℚ`. HTTP
requests issued by `upload_chunk` are recorded in an event trace. -/

/-- A stored point's payload (`{"chunk_text", "source_file", "chunk_id"}`). -/
structure Payload where
  chunk_text : String
  source_file : String
  chunk_id : Nat
deriving DecidableEq

/-- The vector slot of a point: anonymous (standard collection) or under
the named `"dense"` key (hybrid collection). -/
inductive VectorData where
  | anon (v : List ℚ)
  | named (dense : List ℚ)
deriving DecidableEq

/-- A point as uploaded to the index. -/
structure Point where
  id : String
  vector : VectorData
  payload : Payload
deriving DecidableEq

/-- Look up a stored point by id. -/
def dbLookup (db : List Point) (point_id : String) : Option Point :=
  db.find? (fun p => p.id == point_id)

/-- Upsert semantics of a Qdrant `PUT points`: replace any point with the
same id, else append. -/
def dbUpsert (db : List Point) (p : Point) : List Point :=
  db.filter (fun q => q.id != p.id) ++ [p]

/-- `QdrantVectorDatabase._format_vector_payload(vector, is_hybrid)`. -/
def format_vector_payload (vector : List ℚ) (is_hybrid : Bool) : VectorData :=
  if is_hybrid then .named vector else .anon vector

/-- `QdrantVectorDatabase._create_point_payload(...)`. -/
def create_point_payload (point_id : String) (vector : List ℚ)
    (chunk_text file_name : String) (chunk_id : Nat) (is_hybrid : Bool) : Point :=
  { id := point_id
    vector := format_vector_payload vector is_hybrid
    payload := { chunk_text := chunk_text, source_file := file_name, chunk_id := chunk_id } }

/-- `QdrantVectorDatabase._check_point_exists(collection, point_id,
file_name, chunk_id)`: `(exists, is_match)`; the match compares the stored
payload's `source_file` and `chunk_id` against the arguments. -/
def check_point_exists (db : List Point) (point_id : String)
    (file_name : String) (chunk_id : Nat) : Bool × Bool :=
  match dbLookup db point_id with
  | none => (false, false)
  | some p =>
    (true, p.payload.source_file == file_name && p.payload.chunk_id == chunk_id)

/-- Errors `upload_chunk` raises before any network traffic
(`InvalidCollectionNameError`). -/
inductive UploadErr where
  | invalidCollectionName
deriving DecidableEq

/-- HTTP requests issued by `upload_chunk`. -/
inductive UploadEvent where
  | check (point_id : String)
  | put (point : Point) (wait : Bool)
deriving DecidableEq

/-- `QdrantVectorDatabase.upload_chunk(collection, chunk_text, file_name,
chunk_id, embedding_func)`. `fetch` is the oracle for the
`get_collection_info` call made by `_ensure_hybrid_collection_cached`;
the result carries the updated point store, the updated hybrid cache and
the trace of issued requests. -/
def upload_chunk (db : List Point) (cache : List (String × Bool))
    (fetch : Except DbErr Json) (collection chunk_text file_name : String)
    (chunk_id : Nat) (embedding_func : String → List ℚ) :
    Except UploadErr (List Point × List (String × Bool) × List UploadEvent) :=
  if validate_collection_name collection = false then
    .error .invalidCollectionName
  else
    let point_id := generate_point_id file_name chunk_id
    let c1 := check_point_exists db point_id file_name chunk_id
    if c1.1 && c1.2 then
      -- point exists with matching payload: idempotent no-op
      .ok (db, cache, [.check point_id])
    else if c1.1 && !c1.2 then
      -- hash collision: retry once under the fallback id
      let point_id' := generate_collision_point_id file_name chunk_id chunk_text
      let c2 := check_point_exists db point_id' file_name chunk_id
      if c2.1 then
        -- fallback also exists: skip, never overwrite
        .ok (db, cache, [.check point_id, .check point_id'])
      else
        let vector := embedding_func chunk_text
        let hc := ensure_hybrid_collection_cached cache collection fetch
        let point := create_point_payload point_id' vector chunk_text file_name
          chunk_id hc.1
        .ok (dbUpsert db point, hc.2, [.check point_id, .check point_id', .put point true])
    else
      let vector := embedding_func chunk_text
      let hc := ensure_hybrid_collection_cached cache collection fetch
      let point := create_point_payload point_id vector chunk_text file_name
        chunk_id hc.1
      .ok (dbUpsert db point, hc.2, [.check point_id, .put point true])

/-- C1: `upload_chunk` checks the primary id derived from
`(file_name, chunk_id)`; skips (no write) if a matching point exists
there; on a differing payload retries exactly once under the fallback id
derived from the chunk text, skipping if that exists too; otherwise builds
the point in the collection's format and issues one waited PUT. -/
theorem upload_chunk_spec (db : List Point) (cache : List (String × Bool))
    (fetch : Except DbErr Json) (collection chunk_text file_name : String)
    (chunk_id : Nat) (ef : String → List ℚ)
    (hname : validate_collection_name collection = true) :
    upload_chunk db cache fetch collection chunk_text file_name chunk_id ef =
      (let pid := generate_point_id file_name chunk_id
       match dbLookup db pid with
       | some existing =>
         if existing.payload.source_file == file_name
             && existing.payload.chunk_id == chunk_id then
           .ok (db, cache, [.check pid])
         else
           let fid := generate_collision_point_id file_name chunk_id chunk_text
           match dbLookup db fid with
           | some _ => .ok (db, cache, [.check pid, .check fid])
           | none =>
             let hc := ensure_hybrid_collection_cached cache collection fetch
             let point := create_point_payload fid (ef chunk_text) chunk_text
               file_name chunk_id hc.1
             .ok (dbUpsert db point, hc.2, [.check pid, .check fid, .put point true])
       | none =>
         let hc := ensure_hybrid_collection_cached cache collection fetch
         let point := create_point_payload pid (ef chunk_text) chunk_text
           file_name chunk_id hc.1
         .ok (dbUpsert db point, hc.2, [.check pid, .put point true])) := by
  simp only [upload_chunk, hname, check_point_exists]
  cases h1 : dbLookup db (generate_point_id file_name chunk_id) with
  | none => simp
  | some existing =>
    by_cases hm : (existing.payload.source_file == file_name
        && existing.payload.chunk_id == chunk_id) = true
    · simp [hm]
    · have hm' : (existing.payload.source_file == file_name
          && existing.payload.chunk_id == chunk_id) = false :=
        Bool.eq_false_iff.mpr hm
      cases h2 : dbLookup db (generate_collision_point_id file_name chunk_id chunk_text) with
      | none => simp [hm']
      | some other => simp [hm']

/-- Concrete instance of `upload_chunk_spec`: fresh upload into an empty
store with a hybrid-detection failure falling back to standard format. -/
theorem upload_chunk_spec_witness :
    validate_collection_name "docs" = true ∧
      upload_chunk [] [] (.error .connection) "docs" "hello" "a.md" 1
          (fun t => [(t.length : ℚ)]) =
        (let pid := generate_point_id "a.md" 1
         match dbLookup [] pid with
         | some existing =>
           if existing.payload.source_file == "a.md"
               && existing.payload.chunk_id == 1 then
             .ok ([], [], [.check pid])
           else
             let fid := generate_collision_point_id "a.md" 1 "hello"
             match dbLookup [] fid with
             | some _ => .ok ([], [], [.check pid, .check fid])
             | none =>
               let hc := ensure_hybrid_collection_cached [] "docs" (.error .connection)
               let point := create_point_payload fid [("hello".length : ℚ)] "hello"
                 "a.md" 1 hc.1
               .ok (dbUpsert [] point, hc.2, [.check pid, .check fid, .put point true])
         | none =>
           let hc := ensure_hybrid_collection_cached [] "docs" (.error .connection)
           let point := create_point_payload pid [("hello".length : ℚ)] "hello"
             "a.md" 1 hc.1
           .ok (dbUpsert [] point, hc.2, [.check pid, .put point true])) :=
  ⟨by decide, upload_chunk_spec [] [] (.error .connection) "docs" "hello" "a.md" 1
    (fun t => [(t.length : ℚ)]) (by decide)⟩

/-- C10: if a point already exists at the primary id for the same
`(file_name, chunk_id)`, `upload_chunk` returns without issuing any write
— even when the stored chunk text differs from the new chunk text — and
the store is unchanged. -/
theorem upload_chunk_skip_ignores_text (db : List Point)
    (cache : List (String × Bool)) (fetch : Except DbErr Json)
    (collection chunk_text file_name : String) (chunk_id : Nat)
    (ef : String → List ℚ) (stored : Point)
    (hname : validate_collection_name collection = true)
    (hstored : dbLookup db (generate_point_id file_name chunk_id) = some stored)
    (hfile : stored.payload.source_file = file_name)
    (hcid : stored.payload.chunk_id = chunk_id)
    (htext : stored.payload.chunk_text ≠ chunk_text) :
    upload_chunk db cache fetch collection chunk_text file_name chunk_id ef =
      .ok (db, cache, [.check (generate_point_id file_name chunk_id)]) := by
  rw [upload_chunk_spec db cache fetch collection chunk_text file_name chunk_id ef hname]
  simp [hstored, hfile, hcid]

/-- Concrete instance of `upload_chunk_skip_ignores_text`: the stored text
`"old"` differs from the new text `"new"`, yet nothing is written. -/
theorem upload_chunk_skip_ignores_text_witness :
    validate_collection_name "docs" = true ∧
      dbLookup [Point.mk (generate_point_id "a.md" 1) (.anon [])
          (Payload.mk "old" "a.md" 1)] (generate_point_id "a.md" 1) =
        some (Point.mk (generate_point_id "a.md" 1) (.anon [])
          (Payload.mk "old" "a.md" 1)) ∧
      (Payload.mk "old" "a.md" 1).source_file = "a.md" ∧
      (Payload.mk "old" "a.md" 1).chunk_id = 1 ∧
      (Payload.mk "old" "a.md" 1).chunk_text ≠ "new" ∧
      upload_chunk [Point.mk (generate_point_id "a.md" 1) (.anon [])
          (Payload.mk "old" "a.md" 1)] [] (.error .connection) "docs" "new" "a.md" 1
          (fun _ => []) =
        .ok ([Point.mk (generate_point_id "a.md" 1) (.anon [])
          (Payload.mk "old" "a.md" 1)], [], [.check (generate_point_id "a.md" 1)]) :=
  ⟨by decide, by simp [dbLookup, List.find?], rfl, rfl, by decide,
    upload_chunk_skip_ignores_text
      [Point.mk (generate_point_id "a.md" 1) (.anon []) (Payload.mk "old" "a.md" 1)]
      [] (.error .connection) "docs" "new" "a.md" 1 (fun _ => [])
      (Point.mk (generate_point_id "a.md" 1) (.anon []) (Payload.mk "old" "a.md" 1))
      (by decide) (by simp [dbLookup, List.find?]) rfl rfl (by decide)⟩

/-! ## Embedding client (`get_embedding`, src/services/embedding.py)

The Ollama HTTP call is an oracle mapping the attempt number to its
outcome; rate-limiter acquisitions, POSTs and back-off sleeps are recorded
in an event trace. The terminal `RuntimeError` (the spec's
`EmbeddingError`) is modelled as `Except.error` carrying the exact message
the code formats. -/

/-- Outcome of one `requests.post` to the embedding service: an HTTP
status with the decoded embedding on 200, or a transport exception. -/
inductive EmbOutcome where
  | success (v : List ℚ)
  | httpError (status : Nat)
  | timeout
  | connError
  | reqError
deriving DecidableEq

/-- The embedding vector if the attempt succeeded. -/
def EmbOutcome.ok? : EmbOutcome → Option (List ℚ)
  | .success v => some v
  | _ => none

/-- Observable actions of `get_embedding`. -/
inductive EmbEvent where
  | acquire
  | post (url text : String)
  | sleep (seconds : Nat)
deriving DecidableEq

/-- Embedding-service configuration (from `get_config()`). -/
structure EmbCfg where
  max_text_length : Nat
  ollama_url : String
deriving DecidableEq

/-- The message of the `RuntimeError` raised after exhausting retries. -/
def embFailMsg (cfg : EmbCfg) : String :=
  "Failed to get embedding after 3 attempts. " ++
  "Unable to connect to Ollama at " ++ cfg.ollama_url ++ ". " ++
  "Please check that Ollama is running and accessible."

/-- The retry loop of `get_embedding`: `attempt` is the 1-based attempt
number, `remaining` the attempts left (`max_attempts = 3` at top level).
Each iteration acquires the rate limiter, posts, and on failure sleeps
`2^(attempt-1)` seconds unless it was the last attempt. -/
def embLoop (outcomes : Nat → EmbOutcome) (url text : String) :
    Nat → Nat → List EmbEvent × Option (List ℚ)
  | _, 0 => ([], none)
  | attempt, remaining + 1 =>
    match (outcomes attempt).ok? with
    | some v => ([.acquire, .post url text], some v)
    | none =>
      if remaining = 0 then
        ([.acquire, .post url text], none)
      else
        let delay := 2 ^ (attempt - 1)
        let rest := embLoop outcomes url text (attempt + 1) remaining
        ([.acquire, .post url text, .sleep delay] ++ rest.1, rest.2)

/-- `get_embedding(text)` from `src/services/embedding.py`. -/
def get_embedding (cfg : EmbCfg) (text : String)
    (outcomes : Nat → EmbOutcome) : List EmbEvent × Except String (List ℚ) :=
  let truncated := text.take cfg.max_text_length
  let r := embLoop outcomes cfg.ollama_url truncated 1 3
  (r.1, match r.2 with
        | some v => .ok v
        | none => .error (embFailMsg cfg))

/-- C4: `get_embedding` truncates the text to the configured maximum,
makes at most 3 attempts, acquires the rate limiter immediately before
each POST, sleeps 1s after the first failure and 2s after the second, and
after 3 failures fails with the error naming Ollama and its URL. -/
theorem get_embedding_spec (cfg : EmbCfg) (text : String)
    (outcomes : Nat → EmbOutcome) :
    get_embedding cfg text outcomes =
      (let t := text.take cfg.max_text_length
       let u := cfg.ollama_url
       match (outcomes 1).ok?, (outcomes 2).ok?, (outcomes 3).ok? with
       | some v, _, _ => ([.acquire, .post u t], .ok v)
       | none, some v, _ =>
         ([.acquire, .post u t, .sleep 1, .acquire, .post u t], .ok v)
       | none, none, some v =>
         ([.acquire, .post u t, .sleep 1, .acquire, .post u t, .sleep 2,
           .acquire, .post u t], .ok v)
       | none, none, none =>
         ([.acquire, .post u t, .sleep 1, .acquire, .post u t, .sleep 2,
           .acquire, .post u t], .error (embFailMsg cfg))) := by
  simp only [get_embedding]
  cases h1 : (outcomes 1).ok? with
  | some v => simp [embLoop, h1]
  | none =>
    cases h2 : (outcomes 2).ok? with
    | some v => simp [embLoop, h1, h2]
    | none =>
      cases h3 : (outcomes 3).ok? with
      | some v => simp [embLoop, h1, h2, h3]
      | none => simp [embLoop, h1, h2, h3]

/-! ## Collection existence check
(`QdrantVectorDatabase._collection_exists`, src/database/adapters/qdrant.py) -/

/-- Outcome of the underlying `GET /collections/{name}` request as
classified by `_make_request`: a response with a status code, or one of
the translated transport exceptions. -/
inductive ReqOutcome where
  | response (status : Nat)
  | connError
  | timeoutError
  | operationError
deriving DecidableEq

/-- `QdrantVectorDatabase._collection_exists(collection_name)`:
`DatabaseConnectionError`/`DatabaseTimeoutError` are caught and yield
`False`; a received response yields `status == 200`;
`DatabaseOperationError` propagates. -/
def collection_exists (req : ReqOutcome) : Except DbErr Bool :=
  match req with
  | .response status => .ok (status == 200)
  | .connError => .ok false
  | .timeoutError => .ok false
  | .operationError => .error .operation

/-- C7: the existence check never raises on connectivity failure — it
returns `false` — and, when a response is received, returns `true` exactly
when the status code is 200. -/
theorem collection_exists_spec (status : Nat) :
    collection_exists .connError = .ok false
    ∧ collection_exists .timeoutError = .ok false
    ∧ collection_exists (.response status) = .ok (status == 200)
    ∧ (collection_exists (.response status) = .ok true ↔ status = 200) := by
  refine ⟨rfl, rfl, rfl, ?_⟩
  simp [collection_exists]

/-! ## Batch fallback
(`CollectionService._process_batch_with_fallback`, src/services/collection.py) -/

/-- A chunk triple `(chunk_text, file_name, chunk_id)`. -/
structure Chunk where
  text : String
  file : String
  idx : Nat
deriving DecidableEq

/-- Upload errors at the service boundary (any Python exception). -/
inductive SvcErr where
  | failure (msg : String)
deriving DecidableEq

/-- The per-item fallback loop: each chunk is attempted through
`upload_chunk`; a failure is logged and the loop continues. Returns the
number of successful uploads and the list of chunks attempted. -/
def fallbackLoop (uploadOne : Chunk → Except SvcErr Unit) :
    List Chunk → Nat × List Chunk
  | [] => (0, [])
  | c :: cs =>
    let rest := fallbackLoop uploadOne cs
    match uploadOne c with
    | .ok _ => (rest.1 + 1, c :: rest.2)
    | .error _ => (rest.1, c :: rest.2)

/-- `CollectionService._process_batch_with_fallback(collection_name,
batch, pbar)`: try the batch upload; on any exception fall back to
uploading each chunk individually. `batchRes` and `uploadOne` are the
oracles for `upload_chunks_batch` and `upload_chunk`. Returns the
`processed` count and the chunks individually attempted. -/
def process_batch_with_fallback (batchRes : Except SvcErr Unit)
    (uploadOne : Chunk → Except SvcErr Unit) (batch : List Chunk) :
    Nat × List Chunk :=
  match batchRes with
  | .ok _ => (batch.length, [])
  | .error _ => fallbackLoop uploadOne batch

/-- C6: when the batch upload raises, every chunk of the batch is
attempted individually in order (no individual failure aborts the loop)
and the returned count is the number of chunks whose individual upload
succeeded. -/
theorem process_batch_fallback_spec (e : SvcErr)
    (uploadOne : Chunk → Except SvcErr Unit) (batch : List Chunk) :
    process_batch_with_fallback (.error e) uploadOne batch =
      (batch.countP (fun c => (uploadOne c).toBool), batch) := by
  simp only [process_batch_with_fallback]
  induction batch with
  | nil => rfl
  | cons c cs ih =>
    simp only [fallbackLoop, ih]
    cases h : uploadOne c with
    | ok u => simp [List.countP_cons, h, Except.toBool, Except.isOk]
    | error err => simp [List.countP_cons, h, Except.toBool, Except.isOk]

/-! ## Text cleaning (`clean_text`, src/services/text_processing.py) -/

/-- State machine for `re.sub(r"#+\s*", "", text)` scanning left to
right: state 0 outside a match, 1 inside a `#`-run, 2 inside the trailing
whitespace of a match (the regex engine resumes scanning at the end of
each non-overlapping match). -/
def stripHeadersAux : Nat → List Char → List Char
  | _, [] => []
  | 0, c :: cs =>
    if c = '#' then stripHeadersAux 1 cs else c :: stripHeadersAux 0 cs
  | 1, c :: cs =>
    if c = '#' then stripHeadersAux 1 cs
    else if c.isWhitespace then stripHeadersAux 2 cs
    else c :: stripHeadersAux 0 cs
  | _, c :: cs =>
    if c.isWhitespace then stripHeadersAux 2 cs
    else if c = '#' then stripHeadersAux 1 cs
    else c :: stripHeadersAux 0 cs

/-- `re.sub(r"\s+", " ", text)`: collapse each whitespace run to one
space (the flag records whether the previous character was whitespace). -/
def collapseWsAux : Bool → List Char → List Char
  | _, [] => []
  | prevWs, c :: cs =>
    if c.isWhitespace then
      if prevWs then collapseWsAux true cs else ' ' :: collapseWsAux true cs
    else c :: collapseWsAux false cs

/-- Python `str.strip()`. -/
def pyStrip (cs : List Char) : List Char :=
  ((cs.dropWhile Char.isWhitespace).reverse.dropWhile Char.isWhitespace).reverse

/-- `clean_text(text)` from `src/services/text_processing.py`. -/
def clean_text (text : String) : String :=
  String.mk (pyStrip (collapseWsAux false (stripHeadersAux 0 text.toList)))

/-! ## Ingestion orchestrator (`CollectionService.load_collection`,
src/services/collection.py)

The filesystem walk is abstracted to the list of `(rel_path, contents)`
pairs it yields in walk order (file reads with the encoding fallback
produce the contents); the remote calls are the same oracles as above. -/

/-- Chunking configuration (`config.chunk_size` / `config.chunk_overlap`). -/
structure LoadCfg where
  chunk_size : Nat
  chunk_overlap : Nat
deriving DecidableEq

/-- Python `s.endswith(suffix)` (character-level suffix test). -/
def strEndsWith (s suffix : String) : Bool :=
  let a := s.toList
  let b := suffix.toList
  b.length ≤ a.length && a.drop (a.length - b.length) == b

/-- `CollectionService._discover_md_files`: `(rel_path, chunk count)` for
each file ending in `.md`. -/
def discover_md_files (cfg : LoadCfg) (files : List (String × String)) :
    List (String × Nat) :=
  (files.filter (fun f => strEndsWith f.1 ".md")).map (fun f =>
    (f.1, (chunk_text (clean_text f.2) cfg.chunk_size cfg.chunk_overlap).length))

/-- `CollectionService._collect_all_chunks`: the flat
`(chunk_text, file_name, chunk_id)` list, chunk ids 1-based per file,
document order preserved. -/
def collect_all_chunks (cfg : LoadCfg) (files : List (String × String)) :
    List Chunk :=
  ((files.filter (fun f => strEndsWith f.1 ".md")).map (fun f =>
    (chunk_text (clean_text f.2) cfg.chunk_size cfg.chunk_overlap).enum.map
      (fun p => Chunk.mk p.2 f.1 (p.1 + 1)))).flatten

/-- Errors `load_collection` raises (`ValueError` for an invalid name or
missing collection, `FileNotFoundError` for a missing path, transport
errors propagating from `get_collection_info`). -/
inductive LoadErr where
  | invalidCollectionName
  | pathNotFound
  | collectionMissing
  | dbError (e : DbErr)
deriving DecidableEq

/-- `CollectionService._validate_collection_exists`: a
`QdrantCollectionNotFoundError` or a falsy `"result"` key becomes the
"collection does not exist" `ValueError`; other transport errors
propagate. (A non-dict info value cannot carry a truthy `"result"`.) -/
def validate_collection_exists (fetch : Except DbErr Json) : Except LoadErr Unit :=
  match fetch with
  | .error .notFound => .error .collectionMissing
  | .error e => .error (.dbError e)
  | .ok info =>
    match info with
    | .obj kvs =>
      if jsonTruthy (.obj kvs) && jsonTruthy ((alookup kvs "result").getD .null) then
        .ok ()
      else
        .error .collectionMissing
    | _ => .error .collectionMissing

/-- `BATCH_SIZE = DEFAULT_BATCH_SIZE` (src/constants.py). -/
def BATCH_SIZE : Nat := 50

/-- Partition into `n`-sized batches (fuel-bounded; the Python loop slices
`all_chunks[start : start + BATCH_SIZE]` for `start in range(0, len, BATCH_SIZE)`). -/
def batchesAux (n : Nat) : Nat → List Chunk → List (List Chunk)
  | 0, _ => []
  | _ + 1, [] => []
  | fuel + 1, l => l.take n :: batchesAux n fuel (l.drop n)

/-- The batches processed by the batch loop. -/
def batches (n : Nat) (l : List Chunk) : List (List Chunk) :=
  batchesAux n l.length l

/-- The warning logged when no `.md` files are found. -/
def noMdWarning (path : String) : String :=
  "No .md files found in " ++ path

/-- The summary line logged at the end of a run. -/
def successLog (nfiles nchunks : Nat) (collection : String) : String :=
  "Successfully loaded " ++ toString nfiles ++ " files (" ++ toString nchunks ++
  " chunks) into collection '" ++ collection ++ "'"

/-- `CollectionService.load_collection(collection_name, path)`. The first
component is the Python return value — `None` (`Unit`) on success — and
the second the warning/summary log lines. `pathExists` abstracts the
`must_exist` check of `validate_path` (its security checks against system
directories are filesystem-dependent and outside this model); the
per-batch results of `_process_batch_with_fallback` are computed and
discarded exactly as in the source. -/
def load_collection (cfg : LoadCfg) (collection_name path : String)
    (pathExists : Bool) (files : List (String × String))
    (fetch : Except DbErr Json) (batchRes : List Chunk → Except SvcErr Unit)
    (uploadOne : Chunk → Except SvcErr Unit) :
    Except LoadErr Unit × List String :=
  if validate_collection_name collection_name = false then
    (.error .invalidCollectionName, [])
  else if pathExists = false then
    (.error .pathNotFound, [])
  else
    match validate_collection_exists fetch with
    | .error e => (.error e, [])
    | .ok _ =>
      let md_files := discover_md_files cfg files
      if md_files.isEmpty then
        (.ok (), [noMdWarning path])
      else
        let total_chunks := (md_files.map Prod.snd).sum
        let all_chunks := collect_all_chunks cfg files
        let _ := (batches BATCH_SIZE all_chunks).map
          (fun b => process_batch_with_fallback (batchRes b) uploadOne b)
        (.ok (), [successLog md_files.length total_chunks collection_name])

/-- An info value with a truthy `"result"` key (collection exists). -/
def sampleOkInfo : Json := .obj [("result", .bool true)]

/-- C8 (counterexample): `load_collection` returns `None`, not a summary —
two runs over inputs with different file and chunk counts produce the very
same return value, so the return value carries neither the number of files
nor the number of chunks (elapsed time is likewise absent; it is only
displayed by the progress bar and measured by the CLI layer). -/
theorem load_collection_returns_no_summary :
    (load_collection ⟨2, 0⟩ "docs" "adrs" true [("a.md", "x y")]
        (.ok sampleOkInfo) (fun _ => .ok ()) (fun _ => .ok ())).1 =
      (load_collection ⟨2, 0⟩ "docs" "adrs" true
        [("a.md", "x y"), ("b.md", "z w q")]
        (.ok sampleOkInfo) (fun _ => .ok ()) (fun _ => .ok ())).1
    ∧ (discover_md_files ⟨2, 0⟩ [("a.md", "x y")]).length ≠
        (discover_md_files ⟨2, 0⟩ [("a.md", "x y"), ("b.md", "z w q")]).length := by
  constructor
  · rfl
  · decide

/-- C8 (amended): `load_collection` reports the number of files and chunks
in its final summary log line (returning `None`; elapsed time is reported
by the CLI layer, not here), and raises when the root path does not exist
or when the target collection is absent. -/
theorem load_collection_spec (cfg : LoadCfg) (name path : String)
    (files : List (String × String)) (fetch : Except DbErr Json)
    (batchRes : List Chunk → Except SvcErr Unit)
    (uploadOne : Chunk → Except SvcErr Unit)
    (hname : validate_collection_name name = true)
    (hmd : (discover_md_files cfg files).isEmpty = false) :
    load_collection cfg name path true files fetch batchRes uploadOne =
      (match validate_collection_exists fetch with
       | .error e => (.error e, [])
       | .ok _ =>
         (.ok (), [successLog (discover_md_files cfg files).length
           ((discover_md_files cfg files).map Prod.snd).sum name]))
    ∧ load_collection cfg name path false files fetch batchRes uploadOne =
        (.error .pathNotFound, [])
    ∧ load_collection cfg name path true files (.error .notFound) batchRes uploadOne =
        (.error .collectionMissing, []) := by
  refine ⟨?_, ?_, ?_⟩
  · simp only [load_collection, hname]
    cases hv : validate_collection_exists fetch with
    | error e => simp
    | ok u => simp [hmd]
  · simp [load_collection, hname]
  · simp [load_collection, hname, validate_collection_exists]

/-- Concrete instance of `load_collection_spec`: one `.md` file of two
words, chunked with size 2. -/
theorem load_collection_spec_witness :
    validate_collection_name "docs" = true ∧
    (discover_md_files ⟨2, 0⟩ [("a.md", "x y")]).isEmpty = false ∧
      (load_collection ⟨2, 0⟩ "docs" "adrs" true [("a.md", "x y")]
          (.ok sampleOkInfo) (fun _ => .ok ()) (fun _ => .ok ()) =
        (match validate_collection_exists (.ok sampleOkInfo) with
         | .error e => (.error e, [])
         | .ok _ =>
           (.ok (), [successLog (discover_md_files ⟨2, 0⟩ [("a.md", "x y")]).length
             ((discover_md_files ⟨2, 0⟩ [("a.md", "x y")]).map Prod.snd).sum "docs"]))
      ∧ load_collection ⟨2, 0⟩ "docs" "adrs" false [("a.md", "x y")]
          (.ok sampleOkInfo) (fun _ => .ok ()) (fun _ => .ok ()) =
          (.error .pathNotFound, [])
      ∧ load_collection ⟨2, 0⟩ "docs" "adrs" true [("a.md", "x y")]
          (.error .notFound) (fun _ => .ok ()) (fun _ => .ok ()) =
          (.error .collectionMissing, [])) :=
  ⟨by decide, by decide,
    load_collection_spec ⟨2, 0⟩ "docs" "adrs" [("a.md", "x y")]
      (.ok sampleOkInfo) (fun _ => .ok ()) (fun _ => .ok ())
      (by decide) (by decide)⟩

/-! ## Rate limiter (`RateLimiter.acquire`, src/rate_limiter.py)

Wall-clock time is an explicit `ℚ` component of the state. `acquire` is a
state transition: `drift ≥ 0` is the time that passed since the state's
clock was last observed, `time.sleep(w)` advances the clock by `w`, and
`time.time()` reads it. The calls list is `self.calls[key]` for the single
key being exercised, in insertion order. -/

/-- Rate limiter state for one key: the clock and the recorded calls. -/
structure RLState where
  now : ℚ
  calls : List ℚ

/-- `RateLimiter._clean_old_calls`: keep `call_time > current - window`. -/
def clean_old_calls (time_window current : ℚ) (calls : List ℚ) : List ℚ :=
  calls.filter (fun t => current - time_window < t)

/-- `RateLimiter.acquire(key)` under a clock advance of `drift`.
`min?.getD 0` is Python's `min(self.calls[key])`, only reached on a
nonempty list when `max_calls ≥ 1`. -/
def acquire (max_calls : Nat) (time_window : ℚ) (s : RLState) (drift : ℚ) :
    RLState :=
  let current := s.now + drift
  let calls := clean_old_calls time_window current s.calls
  if max_calls ≤ calls.length then
    let oldest := calls.min?.getD 0
    let wait := time_window - (current - oldest)
    if 0 < wait then
      let current' := current + wait
      let calls' := clean_old_calls time_window current' calls
      { now := current', calls := calls' ++ [current'] }
    else
      { now := current, calls := calls ++ [current] }
  else
    { now := current, calls := calls ++ [current] }

/-- A sequence of `acquire` calls with the given clock drifts. -/
def runAcquires (max_calls : Nat) (time_window : ℚ) :
    RLState → List ℚ → RLState
  | s, [] => s
  | s, d :: ds => runAcquires max_calls time_window (acquire max_calls time_window s d) ds

/-- The clock never runs backwards across an `acquire`. -/
theorem acquire_now_mono (m : Nat) (w : ℚ) (s : RLState) (d : ℚ) (hd : 0 ≤ d) :
    s.now ≤ (acquire m w s d).now := by
  unfold acquire
  try dsimp only
  split
  · split
    · try dsimp only
      next hfull hwait => linarith
    · try dsimp only
      linarith
  · try dsimp only
    linarith

/-- Invariant after `j` acquisitions from a start clock `t0`: either the
window has already fully elapsed, or all `j` calls are still recorded with
timestamps between `t0` and the clock. -/
def RLInv (m : Nat) (w t0 : ℚ) (j : Nat) (s : RLState) : Prop :=
  t0 + w ≤ s.now ∨
    (s.calls.length = j ∧ j ≤ m ∧ t0 ≤ s.now ∧
      ∀ r ∈ s.calls, t0 ≤ r ∧ r ≤ s.now)

/-- `min` on `ℚ` picks one of its arguments. -/
theorem rat_min_eq_or (a b : ℚ) : min a b = a ∨ min a b = b := by
  rcases le_total a b with h | h
  · exact Or.inl (min_eq_left h)
  · exact Or.inr (min_eq_right h)

/-- One `acquire` step preserves the invariant (counting one more call). -/
theorem acquire_inv (m : Nat) (w t0 : ℚ) (j : Nat) (s : RLState) (d : ℚ)
    (hm : 1 ≤ m) (hw : 0 < w) (hd : 0 ≤ d) (hinv : RLInv m w t0 j s) :
    RLInv m w t0 (j + 1) (acquire m w s d) := by
  rcases hinv with hdone | ⟨hlen, hjm, hnow, hcalls⟩
  · exact Or.inl (le_trans hdone (acquire_now_mono m w s d hd))
  · by_cases hkeep : ∀ r ∈ s.calls, s.now + d - w < r
    · -- nothing is cleaned: the filter keeps every recorded call
      have hfil : clean_old_calls w (s.now + d) s.calls = s.calls := by
        unfold clean_old_calls
        apply List.filter_eq_self.mpr
        intro r hr
        exact decide_eq_true (hkeep r hr)
      by_cases hfull : m ≤ j
      · -- the window is full: the limiter sleeps until `oldest + w`
        have hjem : j = m := le_antisymm hjm hfull
        have hne : s.calls ≠ [] := by
          intro hnil
          rw [hnil] at hlen
          simp at hlen
          omega
        obtain ⟨x, hx⟩ : ∃ x, s.calls.min? = some x := by
          cases hmin : s.calls.min? with
          | none => exact absurd (List.min?_eq_none_iff.mp hmin) hne
          | some x => exact ⟨x, rfl⟩
        have hxmem : x ∈ s.calls := List.min?_mem rat_min_eq_or hx
        have hxt0 : t0 ≤ x := (hcalls x hxmem).1
        left
        unfold acquire
        try dsimp only
        rw [hfil, hlen, hjem, if_pos (le_refl m), hx]
        dsimp only [Option.getD]
        by_cases hwait : 0 < w - (s.now + d - x)
        · rw [if_pos hwait]
          try dsimp only
          linarith
        · rw [if_neg hwait]
          try dsimp only
          have : w ≤ s.now + d - x := by linarith
          linarith
      · -- below the limit: record the call
        right
        have hcond : ¬ m ≤ (clean_old_calls w (s.now + d) s.calls).length := by
          rw [hfil, hlen]
          exact hfull
        unfold acquire
        try dsimp only
        rw [if_neg hcond, hfil]
        refine ⟨by simp [hlen], by omega, by (try dsimp only); linarith, ?_⟩
        intro r hr
        rcases List.mem_append.mp hr with hr | hr
        · obtain ⟨h1, h2⟩ := hcalls r hr
          exact ⟨h1, by (try dsimp only); linarith⟩
        · rcases List.mem_singleton.mp hr with rfl
          exact ⟨by (try dsimp only); linarith, le_refl _⟩
    · -- some recorded call fell out of the window: a full window already passed
      left
      push_neg at hkeep
      obtain ⟨r, hrmem, hrle⟩ := hkeep
      have hrt0 : t0 ≤ r := (hcalls r hrmem).1
      have hcur : t0 + w ≤ s.now + d := by linarith
      have : s.now + d ≤ (acquire m w s d).now := by
        unfold acquire
        try dsimp only
        split
        · split
          · try dsimp only
            next hfull hwait => linarith
          · try dsimp only
            linarith
        · try dsimp only
          linarith
      linarith

/-- The invariant is preserved along any drift sequence. -/
theorem runAcquires_inv (m : Nat) (w t0 : ℚ) (hm : 1 ≤ m) (hw : 0 < w) :
    ∀ (ds : List ℚ) (j : Nat) (s : RLState), (∀ d ∈ ds, 0 ≤ d) →
      RLInv m w t0 j s → RLInv m w t0 (j + ds.length) (runAcquires m w s ds) := by
  intro ds
  induction ds with
  | nil => intro j s _ hinv; simpa using hinv
  | cons d ds ih =>
    intro j s hd hinv
    have step := acquire_inv m w t0 j s d hm hw (hd d (by simp)) hinv
    have tail := ih (j + 1) (acquire m w s d) (fun x hx => hd x (by simp [hx])) step
    simpa [Nat.add_comm, Nat.add_assoc, Nat.add_left_comm] using tail

/-- C9: for a limiter with `max_calls ≥ 1` per 1-second window, any
sequence of `2 * max_calls` consecutive `acquire` calls on one key (with
arbitrary nonnegative clock drift between them, starting from a fresh
state) finishes at least 1 second after it started. -/
theorem rate_limiter_bound (max_calls : Nat) (t0 : ℚ) (drifts : List ℚ)
    (hm : 1 ≤ max_calls) (hlen : drifts.length = 2 * max_calls)
    (hd : ∀ d ∈ drifts, 0 ≤ d) :
    t0 + 1 ≤ (runAcquires max_calls 1 ⟨t0, []⟩ drifts).now := by
  have hbase : RLInv max_calls 1 t0 0 ⟨t0, []⟩ := by
    right
    exact ⟨rfl, Nat.zero_le _, le_refl _, by simp⟩
  have hfin := runAcquires_inv max_calls 1 t0 hm (by norm_num) drifts 0 ⟨t0, []⟩ hd hbase
  rw [hlen] at hfin
  rcases hfin with hdone | ⟨_, hle, _, _⟩
  · simpa using hdone
  · omega

/-- Concrete instance of `rate_limiter_bound`: `max_calls = 1`, two
back-to-back acquisitions from time `0`. -/
theorem rate_limiter_bound_witness :
    1 ≤ 1 ∧ ([(0 : ℚ), 0]).length = 2 * 1 ∧ (∀ d ∈ [(0 : ℚ), 0], 0 ≤ d) ∧
      (0 : ℚ) + 1 ≤ (runAcquires 1 1 ⟨0, []⟩ [0, 0]).now :=
  ⟨le_refl 1, rfl, by norm_num,
    rate_limiter_bound 1 0 [0, 0] (le_refl 1) rfl (by norm_num)⟩

end VdbFlow
